import Mathlib

/-!
Verification of the `burner` subtitle-burning tool (`src/burner/burner.py`).

Shallow embedding conventions:
* Python floats (subtitle start times, frame rate, animation scales) are
  modelled as rationals `ℚ`.
* Python `round` is round-half-to-even (`pyround`), Python `int()` truncates
  toward zero (`pyint`).
* The PIL image layer is embedded as a record of the image geometry plus the
  list of draw commands issued on it; rasterization of glyphs is delegated to
  the external font library, so pixel content of a text command is abstracted
  by a `coverage` oracle.
* The ffmpeg subprocess is embedded as the argument list it is spawned with
  plus a trace of pipe actions (`write`/`closeStdin`/`wait`); pipe-write
  failures are injected by a `writeFails` schedule.
-/

namespace Burner

/-- Python `round` on a rational: round half to even (banker's rounding). -/
def pyround (q : ℚ) : ℤ :=
  let f : ℤ := ⌊q⌋
  let frac : ℚ := q - f
  if frac < 1/2 then f
  else if 1/2 < frac then f + 1
  else if f % 2 = 0 then f else f + 1

/-- Python `int()` on a rational: truncation toward zero. -/
def pyint (q : ℚ) : ℤ :=
  if q < 0 then ⌈q⌉ else ⌊q⌋

/-- One subtitle entry: `(text, start)`, start time in seconds.
Mirrors the named tuple unpacked as `text, start = subtitle_token`. -/
structure SubtitleToken where
  text : String
  start : ℚ
  deriving Repr, DecidableEq

/-- Modelled from the spec: the media descriptor (`Probe` lives in the
`burner.probe` module, which is not part of the sources here) — frame
dimensions, frame rate, total frame count, read once and immutable.
`size = (width, height)`; `center` is the pixel coordinate used as text
anchor. -/
structure Probe where
  size : ℕ × ℕ
  center : ℚ × ℚ
  fps : ℚ
  frame_count : ℕ
  deriving Repr, DecidableEq

/-- Modelled from the spec: the rendering configuration
(`SubtitleOptions` lives in `burner._typing`, not part of the sources
here) — font path, font size, fill color, capitalize flag,
alphanumeric-filter flag, stroke width, stroke fill, render time offset.
Colors are kept abstract as strings. -/
structure SubtitleOptions where
  font_path : String
  font_size : ℚ
  font_fill : String
  capitalize : Bool
  filter_alnum : Bool
  stroke_width : ℕ
  stroke_fill : String
  render_offset : ℚ
  deriving Repr, DecidableEq

/-- Modelled from the spec: `animations.pop` (the `burner.animations`
module is not part of the sources here) — the single animation curve, a
brief pop: rise from the smallest scale, overshoot, then settle at 1.
Total on all inputs; smallest value at elapsed time 0. -/
def pop (t : ℚ) : ℚ :=
  if t < 1/10 then 1/2 + 6 * t
  else if t < 1/5 then 6/5 - t
  else 1

/-- Modelled from the spec: `filter_alnum` from `burner._utils` (not part
of the sources here) — strip non-alphanumeric characters from the text. -/
def filter_alnum (s : String) : String :=
  String.mk (s.data.filter Char.isAlphanum)

/-- Python `str.upper`, modelled on ASCII characters. -/
def pyUpper (s : String) : String :=
  String.mk (s.data.map Char.toUpper)

/-- Python `max(..., key=lambda token: token.start, default=None)`:
fold over the list keeping the current maximum, replacing it only on a
strictly greater key, so the first of equal keys wins; `none` on an empty
list. -/
def pymaxStep (acc : Option SubtitleToken) (tok : SubtitleToken) :
    Option SubtitleToken :=
  match acc with
  | none => some tok
  | some m => if m.start < tok.start then some tok else some m

/-- See `pymaxStep`: the whole `max` call. -/
def pymaxByStart (l : List SubtitleToken) : Option SubtitleToken :=
  l.foldl pymaxStep none

/-- The selection in the burn loop at frame `n`:
`max((token for token in subtitles if n >= round(token.start * fps)),
     key=lambda token: token.start, default=None)`. -/
def selectSubtitle (subs : List SubtitleToken) (fps : ℚ) (n : ℕ) :
    Option SubtitleToken :=
  pymaxByStart (subs.filter (fun tok => pyround (tok.start * fps) ≤ (n : ℤ)))

/-- One `draw.text(...)` call as issued in `_get_text_image`, with all of
its keyword arguments, including the truetype font loaded just before it. -/
structure TextCmd where
  xy : ℚ × ℚ
  text : String
  fill : String
  fontPath : String
  fontSize : ℤ
  anchor : String
  language : String
  stroke_width : ℕ
  stroke_fill : String
  deriving Repr, DecidableEq

/-- A PIL image: mode, size, and the draw commands issued on it.
`Image.new(mode="RGBA", size)` starts with no commands (fully
transparent). -/
structure PILImage where
  mode : String
  size : ℕ × ℕ
  ops : List TextCmd
  deriving Repr, DecidableEq

/-- A rasterization oracle for the external font library: for a draw
command and a pixel coordinate, the RGBA value the command paints there,
or `none` where the command leaves the pixel untouched. -/
def Coverage : Type := TextCmd → ℕ → ℕ → Option (ℕ × ℕ × ℕ × ℕ)

/-- The RGBA value of pixel `(x, y)`: start from the transparent
background `(0,0,0,0)` of `Image.new` and apply each draw command. -/
def pixelAt (cov : Coverage) (img : PILImage) (x y : ℕ) : ℕ × ℕ × ℕ × ℕ :=
  img.ops.foldl (fun p cmd => (cov cmd x y).getD p) (0, 0, 0, 0)

/-- The four bytes of one RGBA pixel. -/
def pixelBytes (p : ℕ × ℕ × ℕ × ℕ) : List ℕ :=
  [p.1, p.2.1, p.2.2.1, p.2.2.2]

/-- `np.array(img).tobytes()`: the PIL RGBA image as a `(height, width, 4)`
row-major byte array. -/
def imageToBytes (cov : Coverage) (img : PILImage) : List ℕ :=
  (List.range img.size.2).flatMap fun y =>
    (List.range img.size.1).flatMap fun x =>
      pixelBytes (pixelAt cov img x y)

/-- `Burner._get_text_image`: optionally strip non-alphanumerics, then
optionally upper-case, allocate a transparent RGBA canvas of the probed
size, and draw the text centered at the probe's center with the scaled
font size and the configured fill and stroke. -/
def _get_text_image (probe : Probe) (options : SubtitleOptions)
    (text : String) (scale : ℚ) : PILImage :=
  let text := if options.filter_alnum then filter_alnum text else text
  let text := if options.capitalize then pyUpper text else text
  { mode := "RGBA"
    size := probe.size
    ops := [{ xy := probe.center
              text := text
              fill := options.font_fill
              fontPath := options.font_path
              fontSize := pyint (options.font_size * scale)
              anchor := "mm"
              language := "en"
              stroke_width := options.stroke_width
              stroke_fill := options.stroke_fill }] }

/-- `np.zeros((size[0], size[1], 4), dtype=np.uint8).tobytes()`: the
precomputed blank frame, `width * height * 4` zero bytes. -/
def blank_frame_bytes (probe : Probe) : List ℕ :=
  List.replicate (probe.size.1 * probe.size.2 * 4) 0

/-- The body of one iteration of the burn loop at frame index `n`: the
bytes written to the encoder pipe — the rendered subtitle image when one
qualifies, the blank frame otherwise. -/
def frameOutput (cov : Coverage) (subs : List SubtitleToken) (probe : Probe)
    (options : SubtitleOptions) (n : ℕ) : List ℕ :=
  match selectSubtitle subs probe.fps n with
  | some tok =>
      let start_frame : ℤ := pyround (tok.start * probe.fps)
      let t : ℚ := ((n : ℚ) - (start_frame : ℚ)) / probe.fps
      imageToBytes cov (_get_text_image probe options tok.text (pop t))
  | none => blank_frame_bytes probe

/-- The ffmpeg argument list built in `Burner.burn`. `pyStr` is Python's
`str(...)` on the numbers interpolated into the command. -/
def ffmpeg_command (pyStr : ℚ → String) (video_path : String) (probe : Probe)
    (options : SubtitleOptions) (out_path : String) : List String :=
  ["ffmpeg",
   "-i", video_path,
   "-f", "rawvideo",
   "-pix_fmt", "rgba",
   "-s", "1080x1920",
   "-framerate", pyStr probe.fps,
   "-i", "-",
   "-filter_complex",
   "[1:v]setpts=PTS+" ++ pyStr options.render_offset
     ++ "/TB[v1];[0:v][v1]overlay=0:0",
   "-map", "0:a",
   "-c:v", "libx264",
   "-c:a", "copy",
   "-loglevel", "error",
   out_path]

/-- An observable action on the encoder subprocess:
`ffmpeg_process.stdin.write(...)`, `ffmpeg_process.stdin.close()`,
`ffmpeg_process.wait()`. -/
inductive FfmpegAction where
  | write (bytes : List ℕ)
  | closeStdin
  | wait
  deriving Repr, DecidableEq

/-- The `for n in range(...)` loop over the remaining frame indices.
`writeFails n = true` means the pipe write at frame `n` raises
(encoder exited / pipe closed early); the loop then stops with that
exception and the failing write emits no data. -/
def writeFrames (cov : Coverage) (subs : List SubtitleToken) (probe : Probe)
    (options : SubtitleOptions) (writeFails : ℕ → Bool) :
    List ℕ → Except String Unit × List FfmpegAction
  | [] => (.ok (), [])
  | n :: ns =>
      if writeFails n then (.error "BrokenPipeError", [])
      else
        let rest := writeFrames cov subs probe options writeFails ns
        (rest.1, .write (frameOutput cov subs probe options n) :: rest.2)

/-- `try ... finally ...`: the cleanup actions run after the body's
actions whether the body finished normally or raised, and the body's
outcome (normal or exceptional) is what propagates. -/
def tryFinallyActs (body : Except String Unit × List FfmpegAction)
    (cleanup : List FfmpegAction) : Except String Unit × List FfmpegAction :=
  (body.1, body.2 ++ cleanup)

/-- `Burner.burn` after spawning the encoder: the frame loop over
`range(probe.frame_count)` wrapped in `try/finally` with
`stdin.close(); wait()` as cleanup. Returns the propagated outcome and
the trace of subprocess actions. -/
def burn (cov : Coverage) (subs : List SubtitleToken) (probe : Probe)
    (options : SubtitleOptions) (writeFails : ℕ → Bool) :
    Except String Unit × List FfmpegAction :=
  tryFinallyActs
    (writeFrames cov subs probe options writeFails
      (List.range probe.frame_count))
    [.closeStdin, .wait]

/-- The constructor's `transcript` argument: a subtitle-file path, an
already-parsed raw transcript (of abstract type `Raw`), or absent. -/
inductive TranscriptArg (Raw : Type) where
  | path (p : String)
  | raw (r : Raw)
  | none

/-- Modelled from the spec: `isinstance(transcript, PathLike)` — the
`PathLike` type from `burner._typing` (not in the sources here)
recognizes exactly the file-path alternative. -/
def isinstancePathLike {Raw : Type} : TranscriptArg Raw → Bool
  | .path _ => true
  | _ => false

/-- Modelled from the spec: `type(transcript) == RawTranscript` — the
`RawTranscript` type from `burner._typing` (not in the sources here)
recognizes exactly the already-parsed raw transcript alternative. -/
def typeIsRawTranscript {Raw : Type} : TranscriptArg Raw → Bool
  | .raw _ => true
  | _ => false

/-- The absent-transcript alternative (`transcript = None`). -/
def isNoneArg {Raw : Type} : TranscriptArg Raw → Bool
  | .none => true
  | _ => false

/-- The dispatch in `Burner.__init__`: file path → subtitle-file loader,
raw transcript → raw-transcript loader, absent → external transcription
engine on the video. The three loaders (`load_subtitles_from_file`,
`load_subtitles_from_raw_transcript`, `transcribe`, all from
`burner.transcription`, not in the sources here) are abstract parameters,
each producing the uniform ordered subtitle sequence. -/
def initSubtitles {Raw : Type}
    (load_subtitles_from_file : String → List SubtitleToken)
    (load_subtitles_from_raw_transcript : Raw → List SubtitleToken)
    (transcribe : String → String → List SubtitleToken)
    (video_path : String) (whisper_model : String)
    (transcript : TranscriptArg Raw) : List SubtitleToken :=
  match transcript with
  | .path p => load_subtitles_from_file p
  | .raw r => load_subtitles_from_raw_transcript r
  | .none => transcribe video_path whisper_model

/-- `p` occurs as a contiguous run inside the argument list `l`. -/
def seqIn (p l : List String) : Prop :=
  ∃ s t, l = s ++ p ++ t

lemma pymaxStep_go (l : List SubtitleToken) (acc : SubtitleToken) :
    ∃ m, l.foldl pymaxStep (some acc) = some m ∧ (m = acc ∨ m ∈ l) ∧
      acc.start ≤ m.start ∧ ∀ x ∈ l, x.start ≤ m.start := by
  induction l generalizing acc with
  | nil => exact ⟨acc, rfl, Or.inl rfl, le_refl _, by simp⟩
  | cons a l ih =>
    by_cases h : acc.start < a.start
    · obtain ⟨m, hm, hmem, hle, hall⟩ := ih a
      refine ⟨m, ?_, ?_, le_trans (le_of_lt h) hle, ?_⟩
      · simpa [pymaxStep, h] using hm
      · rcases hmem with rfl | hmem
        · exact Or.inr (List.mem_cons_self _ _)
        · exact Or.inr (List.mem_cons_of_mem _ hmem)
      · intro x hx
        rcases List.mem_cons.mp hx with rfl | hx
        · exact hle
        · exact hall x hx
    · obtain ⟨m, hm, hmem, hle, hall⟩ := ih acc
      refine ⟨m, ?_, Or.imp id (List.mem_cons_of_mem _) hmem, hle, ?_⟩
      · simpa [pymaxStep, h] using hm
      · intro x hx
        rcases List.mem_cons.mp hx with rfl | hx
        · exact le_trans (not_lt.mp h) hle
        · exact hall x hx

lemma pymaxByStart_some {l : List SubtitleToken} {m : SubtitleToken}
    (h : pymaxByStart l = some m) :
    m ∈ l ∧ ∀ x ∈ l, x.start ≤ m.start := by
  cases l with
  | nil => simp [pymaxByStart] at h
  | cons a l =>
    obtain ⟨m', hm', hmem, hle, hall⟩ := pymaxStep_go l a
    have hm'm : m' = m := by
      have : l.foldl pymaxStep (some a) = some m := h
      rw [this] at hm'
      exact (Option.some_injective _ hm').symm
    subst hm'm
    refine ⟨?_, ?_⟩
    · rcases hmem with rfl | hmem
      · exact List.mem_cons_self _ _
      · exact List.mem_cons_of_mem _ hmem
    · intro x hx
      rcases List.mem_cons.mp hx with rfl | hx
      · exact hle
      · exact hall x hx

lemma selectSubtitle_some {subs : List SubtitleToken} {fps : ℚ} {n : ℕ}
    {tok : SubtitleToken} (h : selectSubtitle subs fps n = some tok) :
    tok ∈ subs ∧ pyround (tok.start * fps) ≤ (n : ℤ) ∧
      ∀ u ∈ subs, pyround (u.start * fps) ≤ (n : ℤ) → u.start ≤ tok.start := by
  obtain ⟨hmem, hmax⟩ := pymaxByStart_some h
  have h1 := List.mem_filter.mp hmem
  refine ⟨h1.1, by simpa using h1.2, ?_⟩
  intro u hu hle
  exact hmax u (List.mem_filter.mpr ⟨hu, by simpa using hle⟩)

lemma selectSubtitle_none {subs : List SubtitleToken} {fps : ℚ} {n : ℕ}
    (h : ∀ tok ∈ subs, (n : ℤ) < pyround (tok.start * fps)) :
    selectSubtitle subs fps n = none := by
  have hf : subs.filter (fun tok => pyround (tok.start * fps) ≤ (n : ℤ)) = [] := by
    simp only [List.filter_eq_nil_iff, decide_eq_true_eq]
    intro tok htok
    exact not_le.mpr (h tok htok)
  simp [selectSubtitle, hf, pymaxByStart]

lemma imageToBytes_length (cov : Coverage) (img : PILImage) :
    (imageToBytes cov img).length = img.size.1 * img.size.2 * 4 := by
  unfold imageToBytes
  rw [List.length_flatMap]
  simp only [Function.comp_def]
  have hrow : ∀ y : ℕ,
      ((List.range img.size.1).flatMap fun x =>
        pixelBytes (pixelAt cov img x y)).length = img.size.1 * 4 := by
    intro y
    rw [List.length_flatMap]
    simp only [Function.comp_def]
    have : ((List.range img.size.1).map fun x =>
        (pixelBytes (pixelAt cov img x y)).length) =
        List.replicate img.size.1 4 := by
      rw [List.eq_replicate_iff]
      refine ⟨by simp, ?_⟩
      intro b hb
      obtain ⟨x, -, rfl⟩ := List.mem_map.mp hb
      rfl
    rw [this, List.sum_replicate, smul_eq_mul]
  have : ((List.range img.size.2).map fun y =>
      ((List.range img.size.1).flatMap fun x =>
        pixelBytes (pixelAt cov img x y)).length) =
      List.replicate img.size.2 (img.size.1 * 4) := by
    rw [List.eq_replicate_iff]
    refine ⟨by simp, ?_⟩
    intro b hb
    obtain ⟨y, -, rfl⟩ := List.mem_map.mp hb
    exact hrow y
  rw [this, List.sum_replicate, smul_eq_mul]
  ring

/-- C1: at every frame index `n`, the selected subtitle is one whose
rounded start frame is at most `n` and whose start time is greatest among
all entries whose rounded start frame is at most `n`; for two consecutive
subtitles with starts `S < S'`, frames in
`[round(S*fps), round(S'*fps))` select the first and frames at or after
`round(S'*fps)` select the second. -/
theorem burn_selects_latest_started :
    (∀ (subs : List SubtitleToken) (fps : ℚ) (n : ℕ) (tok : SubtitleToken),
        selectSubtitle subs fps n = some tok →
        tok ∈ subs ∧ pyround (tok.start * fps) ≤ (n : ℤ) ∧
          ∀ u ∈ subs, pyround (u.start * fps) ≤ (n : ℤ) → u.start ≤ tok.start)
    ∧ ∀ (t1 t2 : SubtitleToken) (fps : ℚ) (n : ℕ), t1.start < t2.start →
        ((pyround (t1.start * fps) ≤ (n : ℤ) ∧
            (n : ℤ) < pyround (t2.start * fps)) →
          selectSubtitle [t1, t2] fps n = some t1)
        ∧ (pyround (t2.start * fps) ≤ (n : ℤ) →
          selectSubtitle [t1, t2] fps n = some t2) := by
  constructor
  · intro subs fps n tok h
    exact selectSubtitle_some h
  · intro t1 t2 fps n hlt
    constructor
    · rintro ⟨h1, h2⟩
      have e1 : decide (pyround (t1.start * fps) ≤ (n : ℤ)) = true :=
        decide_eq_true h1
      have e2 : decide (pyround (t2.start * fps) ≤ (n : ℤ)) = false :=
        decide_eq_false (not_le.mpr h2)
      simp [selectSubtitle, List.filter, e1, e2, pymaxByStart, pymaxStep]
    · intro h2
      have e2 : decide (pyround (t2.start * fps) ≤ (n : ℤ)) = true :=
        decide_eq_true h2
      by_cases h1 : pyround (t1.start * fps) ≤ (n : ℤ)
      · have e1 : decide (pyround (t1.start * fps) ≤ (n : ℤ)) = true :=
          decide_eq_true h1
        simp [selectSubtitle, List.filter, e1, e2, pymaxByStart, pymaxStep, hlt]
      · have e1 : decide (pyround (t1.start * fps) ≤ (n : ℤ)) = false :=
          decide_eq_false h1
        simp [selectSubtitle, List.filter, e1, e2, pymaxByStart, pymaxStep]

/-- Witness for C1 at a concrete input: subtitles at 0s and 1s, 30 fps;
frame 15 selects the first, frame 30 selects the second. -/
theorem burn_selects_latest_started_witness :
    selectSubtitle [⟨"hello", 0⟩, ⟨"world", 1⟩] 30 15 = some ⟨"hello", 0⟩ ∧
    selectSubtitle [⟨"hello", 0⟩, ⟨"world", 1⟩] 30 30 = some ⟨"world", 1⟩ := by
  constructor
  · exact (burn_selects_latest_started.2 ⟨"hello", 0⟩ ⟨"world", 1⟩ 30 15
      (by norm_num)).1
      ⟨show pyround ((0 : ℚ) * 30) ≤ (15 : ℤ) by norm_num [pyround],
       show (15 : ℤ) < pyround ((1 : ℚ) * 30) by norm_num [pyround]⟩
  · exact (burn_selects_latest_started.2 ⟨"hello", 0⟩ ⟨"world", 1⟩ 30 30
      (by norm_num)).2
      (show pyround ((1 : ℚ) * 30) ≤ (30 : ℤ) by norm_num [pyround])

/-- C10: whenever a subtitle is selected at frame `n`, the elapsed time
`(n - round(start * fps)) / fps` handed to the animation curve is
non-negative (for a positive frame rate), because the selection predicate
guarantees `round(start * fps) ≤ n`. -/
theorem pop_elapsed_nonneg (subs : List SubtitleToken) (probe : Probe)
    (n : ℕ) (tok : SubtitleToken) (hfps : 0 < probe.fps)
    (h : selectSubtitle subs probe.fps n = some tok) :
    0 ≤ ((n : ℚ) - (pyround (tok.start * probe.fps) : ℚ)) / probe.fps := by
  obtain ⟨-, hle, -⟩ := selectSubtitle_some h
  apply div_nonneg _ (le_of_lt hfps)
  rw [sub_nonneg]
  exact_mod_cast hle

/-- Witness for C10: one subtitle at 1s, 30 fps, frame 31. -/
theorem pop_elapsed_nonneg_witness :
    0 ≤ ((31 : ℚ) - (pyround ((1 : ℚ) * 30) : ℚ)) / 30 := by
  have hsel : selectSubtitle [⟨"b", 1⟩] 30 31 = some ⟨"b", 1⟩ := by
    have h30 : pyround (30 : ℚ) = 30 := by norm_num [pyround]
    simp [selectSubtitle, List.filter_cons, pymaxByStart, pymaxStep, h30]
  exact pop_elapsed_nonneg [⟨"b", 1⟩] ⟨(2, 3), (1, 1), 30, 90⟩ 31 ⟨"b", 1⟩
    (by norm_num) hsel

/-- C3: at every frame index where no subtitle qualifies (all rounded
start frames exceed the index, in particular when the transcript is
empty), the bytes written are the precomputed blank buffer of exactly
`width * height * 4` zero bytes. -/
theorem blank_frame_when_no_subtitle (cov : Coverage)
    (subs : List SubtitleToken) (probe : Probe) (options : SubtitleOptions) :
    (∀ n : ℕ, (∀ tok ∈ subs, (n : ℤ) < pyround (tok.start * probe.fps)) →
      frameOutput cov subs probe options n =
        List.replicate (probe.size.1 * probe.size.2 * 4) 0)
    ∧ (subs = [] → ∀ n : ℕ,
      frameOutput cov subs probe options n =
        List.replicate (probe.size.1 * probe.size.2 * 4) 0) := by
  have h1 : ∀ n : ℕ, (∀ tok ∈ subs, (n : ℤ) < pyround (tok.start * probe.fps)) →
      frameOutput cov subs probe options n =
        List.replicate (probe.size.1 * probe.size.2 * 4) 0 := by
    intro n h
    simp only [frameOutput, selectSubtitle_none h, blank_frame_bytes]
  refine ⟨h1, ?_⟩
  rintro rfl n
  exact h1 n (by simp)

/-- Witness for C3: a 1×2 frame, one subtitle starting at 1s, frame 0. -/
theorem blank_frame_when_no_subtitle_witness :
    frameOutput (fun _ _ _ => Option.none) [⟨"x", 1⟩]
      ⟨(1, 2), (0, 0), 30, 5⟩ ⟨"f", 10, "w", true, true, 1, "b", 0⟩ 0 =
      List.replicate 8 0 := by
  exact (blank_frame_when_no_subtitle (fun _ _ _ => Option.none) [⟨"x", 1⟩]
      ⟨(1, 2), (0, 0), 30, 5⟩ ⟨"f", 10, "w", true, true, 1, "b", 0⟩).1 0
    (by
      intro tok htok
      simp only [List.mem_singleton] at htok
      subst htok
      show (0 : ℤ) < pyround ((1 : ℚ) * 30)
      norm_num [pyround])

/-- C5: the animation curve is total — it yields a value at every
elapsed time — and its value at elapsed time 0 is its minimum over all
non-negative elapsed times, so time 0 gives the smallest rendered size. -/
theorem pop_total_and_min_at_zero :
    (∀ t : ℚ, ∃ s : ℚ, pop t = s) ∧ (∀ t : ℚ, 0 ≤ t → pop 0 ≤ pop t) := by
  constructor
  · intro t
    exact ⟨pop t, rfl⟩
  · intro t ht
    have h0 : pop 0 = 1/2 := by norm_num [pop]
    rw [h0]
    unfold pop
    split_ifs with h1 h2
    · linarith
    · linarith
    · norm_num

/-- Witness for C5 at elapsed time 1000. -/
theorem pop_total_and_min_at_zero_witness : pop 0 ≤ pop 1000 :=
  pop_total_and_min_at_zero.2 1000 (by norm_num)

/-- C9: every iteration of the frame loop writes a byte string of the
same length, `width * height * 4` for the probed frame size, whichever
branch is taken: the blank buffer has shape `(width, height, 4)` and the
rendered image array has shape `(height, width, 4)`, with equal totals. -/
theorem frame_bytes_constant_length (cov : Coverage)
    (subs : List SubtitleToken) (probe : Probe) (options : SubtitleOptions)
    (n : ℕ) :
    (frameOutput cov subs probe options n).length =
      probe.size.1 * probe.size.2 * 4 := by
  unfold frameOutput
  cases h : selectSubtitle subs probe.fps n with
  | none => simp [blank_frame_bytes]
  | some tok => simp [imageToBytes_length, _get_text_image]

lemma writeFrames_all_writes (cov : Coverage) (subs : List SubtitleToken)
    (probe : Probe) (options : SubtitleOptions) (fails : ℕ → Bool)
    (ns : List ℕ) :
    ∀ a ∈ (writeFrames cov subs probe options fails ns).2,
      ∃ b, a = FfmpegAction.write b := by
  induction ns with
  | nil => simp [writeFrames]
  | cons n ns ih =>
    by_cases h : fails n
    · simp [writeFrames, h]
    · simp only [writeFrames, h, Bool.false_eq_true, if_false]
      intro a ha
      rcases List.mem_cons.mp ha with rfl | ha
      · exact ⟨_, rfl⟩
      · exact ih a ha

lemma writeFrames_no_fail (cov : Coverage) (subs : List SubtitleToken)
    (probe : Probe) (options : SubtitleOptions) (fails : ℕ → Bool)
    (ns : List ℕ) (h : ∀ n ∈ ns, fails n = false) :
    writeFrames cov subs probe options fails ns =
      (.ok (), ns.map fun n =>
        FfmpegAction.write (frameOutput cov subs probe options n)) := by
  induction ns with
  | nil => simp [writeFrames]
  | cons n ns ih =>
    have hn : fails n = false := h n (List.mem_cons_self _ _)
    have hns : ∀ m ∈ ns, fails m = false :=
      fun m hm => h m (List.mem_cons_of_mem _ hm)
    simp [writeFrames, hn, ih hns]

lemma writeFrames_fail (cov : Coverage) (subs : List SubtitleToken)
    (probe : Probe) (options : SubtitleOptions) (fails : ℕ → Bool)
    (ns : List ℕ) (h : ∃ n ∈ ns, fails n = true) :
    (writeFrames cov subs probe options fails ns).1 =
      .error "BrokenPipeError" := by
  induction ns with
  | nil => simp at h
  | cons n ns ih =>
    by_cases hn : fails n
    · simp [writeFrames, hn]
    · simp only [writeFrames, hn, Bool.false_eq_true, if_false]
      apply ih
      rcases h with ⟨m, hm, hmf⟩
      rcases List.mem_cons.mp hm with rfl | hm
      · exact absurd hmf (by simp [hn])
      · exact ⟨m, hm, hmf⟩

/-- C2: the burn loop's subprocess trace always ends with closing the
encoder's input stream and then waiting on the subprocess, after nothing
but frame writes — whether the loop finished all frames (outcome ok) or a
pipe write raised (outcome is the propagated error). -/
theorem burn_always_cleans_up (cov : Coverage) (subs : List SubtitleToken)
    (probe : Probe) (options : SubtitleOptions) (fails : ℕ → Bool) :
    (∃ ws, (burn cov subs probe options fails).2 =
        ws ++ [FfmpegAction.closeStdin, FfmpegAction.wait] ∧
      ∀ a ∈ ws, ∃ b, a = FfmpegAction.write b)
    ∧ ((∀ k ∈ List.range probe.frame_count, fails k = false) →
      (burn cov subs probe options fails).1 = .ok ())
    ∧ ((∃ k ∈ List.range probe.frame_count, fails k = true) →
      (burn cov subs probe options fails).1 = .error "BrokenPipeError") := by
  refine ⟨⟨(writeFrames cov subs probe options fails
      (List.range probe.frame_count)).2, rfl,
      writeFrames_all_writes cov subs probe options fails _⟩, ?_, ?_⟩
  · intro h
    show (writeFrames cov subs probe options fails
        (List.range probe.frame_count)).1 = .ok ()
    rw [writeFrames_no_fail cov subs probe options fails _ h]
  · intro h
    exact writeFrames_fail cov subs probe options fails _ h

/-- Witness for C2: with a write failure at frame 1 of 3, the outcome is
the propagated pipe error; with no failures it is ok. -/
theorem burn_always_cleans_up_witness :
    (burn (fun _ _ _ => Option.none) [] ⟨(1, 1), (0, 0), 30, 3⟩
        ⟨"f", 12, "w", false, false, 0, "b", 0⟩ (fun k => k == 1)).1 =
      .error "BrokenPipeError" ∧
    (burn (fun _ _ _ => Option.none) [] ⟨(1, 1), (0, 0), 30, 3⟩
        ⟨"f", 12, "w", false, false, 0, "b", 0⟩ (fun _ => false)).1 =
      .ok () := by
  constructor
  · exact (burn_always_cleans_up (fun _ _ _ => Option.none) []
      ⟨(1, 1), (0, 0), 30, 3⟩ ⟨"f", 12, "w", false, false, 0, "b", 0⟩
      (fun k => k == 1)).2.2 ⟨1, by decide, rfl⟩
  · exact (burn_always_cleans_up (fun _ _ _ => Option.none) []
      ⟨(1, 1), (0, 0), 30, 3⟩ ⟨"f", 12, "w", false, false, 0, "b", 0⟩
      (fun _ => false)).2.1 (fun k _ => rfl)

/-- C8: with no pipe failures, the `n`-th write of the burn loop carries
exactly the frame-`n` bytes, and whenever a subtitle is selected at frame
`n` those bytes are the rendered image for the subtitle's text at
animation scale `pop ((n - round(start * fps)) / fps)`. -/
theorem written_frame_uses_elapsed_time (cov : Coverage)
    (subs : List SubtitleToken) (probe : Probe) (options : SubtitleOptions)
    (fails : ℕ → Bool) (hok : ∀ k, fails k = false) :
    (∀ n : ℕ, n < probe.frame_count →
      ((burn cov subs probe options fails).2)[n]? =
        some (FfmpegAction.write (frameOutput cov subs probe options n)))
    ∧ ∀ (n : ℕ) (tok : SubtitleToken),
        selectSubtitle subs probe.fps n = some tok →
        frameOutput cov subs probe options n =
          imageToBytes cov (_get_text_image probe options tok.text
            (pop (((n : ℚ) - (pyround (tok.start * probe.fps) : ℚ)) /
              probe.fps))) := by
  constructor
  · intro n hn
    show ((writeFrames cov subs probe options fails
        (List.range probe.frame_count)).2 ++
        [FfmpegAction.closeStdin, FfmpegAction.wait])[n]? = _
    rw [writeFrames_no_fail cov subs probe options fails _
      (fun k _ => hok k)]
    rw [List.getElem?_append_left (by simpa using hn)]
    simp [hn]
  · intro n tok h
    simp only [frameOutput, h]

/-- Witness for C8: one subtitle at 0s on a 1×1 frame, 30 fps; frame 0's
write is the rendered image at scale `pop 0`. -/
theorem written_frame_uses_elapsed_time_witness :
    ((burn (fun _ _ _ => Option.none) [⟨"hi", 0⟩] ⟨(1, 1), (0, 0), 30, 2⟩
        ⟨"f", 12, "w", false, false, 0, "b", 0⟩ (fun _ => false)).2)[0]? =
      some (FfmpegAction.write (frameOutput (fun _ _ _ => Option.none)
        [⟨"hi", 0⟩] ⟨(1, 1), (0, 0), 30, 2⟩
        ⟨"f", 12, "w", false, false, 0, "b", 0⟩ 0)) :=
  (written_frame_uses_elapsed_time (fun _ _ _ => Option.none) [⟨"hi", 0⟩]
    ⟨(1, 1), (0, 0), 30, 2⟩ ⟨"f", 12, "w", false, false, 0, "b", 0⟩
    (fun _ => false) (fun _ => rfl)).1 0 (by decide)

/-- C7: the encoder is spawned with the fixed argument template — raw
RGBA input at fixed 1080×1920 geometry and the probed frame rate on the
piped second input, a filter chain shifting the overlay's timestamps by
the render offset and overlaying it at `(0, 0)`, the original audio
mapped and stream-copied, and video encoded with libx264. -/
theorem ffmpeg_fixed_template (pyStr : ℚ → String) (video_path : String)
    (probe : Probe) (options : SubtitleOptions) (out_path : String) :
    (ffmpeg_command pyStr video_path probe options out_path).head? =
      some "ffmpeg" ∧
    seqIn ["-i", video_path]
      (ffmpeg_command pyStr video_path probe options out_path) ∧
    seqIn ["-f", "rawvideo", "-pix_fmt", "rgba", "-s", "1080x1920",
        "-framerate", pyStr probe.fps, "-i", "-"]
      (ffmpeg_command pyStr video_path probe options out_path) ∧
    seqIn ["-filter_complex",
        "[1:v]setpts=PTS+" ++ pyStr options.render_offset
          ++ "/TB[v1];[0:v][v1]overlay=0:0"]
      (ffmpeg_command pyStr video_path probe options out_path) ∧
    seqIn ["-map", "0:a"]
      (ffmpeg_command pyStr video_path probe options out_path) ∧
    seqIn ["-c:v", "libx264"]
      (ffmpeg_command pyStr video_path probe options out_path) ∧
    seqIn ["-c:a", "copy"]
      (ffmpeg_command pyStr video_path probe options out_path) ∧
    (ffmpeg_command pyStr video_path probe options out_path).getLast? =
      some out_path := by
  refine ⟨rfl, ⟨["ffmpeg"], _, rfl⟩,
    ⟨["ffmpeg", "-i", video_path], _, rfl⟩,
    ⟨["ffmpeg", "-i", video_path, "-f", "rawvideo", "-pix_fmt", "rgba",
      "-s", "1080x1920", "-framerate", pyStr probe.fps, "-i", "-"], _, rfl⟩,
    ⟨["ffmpeg", "-i", video_path, "-f", "rawvideo", "-pix_fmt", "rgba",
      "-s", "1080x1920", "-framerate", pyStr probe.fps, "-i", "-",
      "-filter_complex",
      "[1:v]setpts=PTS+" ++ pyStr options.render_offset
        ++ "/TB[v1];[0:v][v1]overlay=0:0"], _, rfl⟩,
    ⟨["ffmpeg", "-i", video_path, "-f", "rawvideo", "-pix_fmt", "rgba",
      "-s", "1080x1920", "-framerate", pyStr probe.fps, "-i", "-",
      "-filter_complex",
      "[1:v]setpts=PTS+" ++ pyStr options.render_offset
        ++ "/TB[v1];[0:v][v1]overlay=0:0", "-map", "0:a"], _, rfl⟩,
    ⟨["ffmpeg", "-i", video_path, "-f", "rawvideo", "-pix_fmt", "rgba",
      "-s", "1080x1920", "-framerate", pyStr probe.fps, "-i", "-",
      "-filter_complex",
      "[1:v]setpts=PTS+" ++ pyStr options.render_offset
        ++ "/TB[v1];[0:v][v1]overlay=0:0", "-map", "0:a",
      "-c:v", "libx264"], _, rfl⟩, ?_⟩
  simp [ffmpeg_command]

/-- C4: the constructor's subtitle sequence comes from exactly one of
three mutually exclusive paths: a file path invokes the subtitle-file
loader, a raw transcript invokes the raw-transcript loader, and an absent
transcript invokes the external transcription engine on the video; each
path yields the uniform ordered subtitle sequence. -/
theorem transcript_source_dispatch {Raw : Type}
    (load_subtitles_from_file : String → List SubtitleToken)
    (load_subtitles_from_raw_transcript : Raw → List SubtitleToken)
    (transcribe : String → String → List SubtitleToken)
    (video_path whisper_model : String) :
    (∀ p, initSubtitles load_subtitles_from_file
        load_subtitles_from_raw_transcript transcribe video_path
        whisper_model (.path p) = load_subtitles_from_file p) ∧
    (∀ r, initSubtitles load_subtitles_from_file
        load_subtitles_from_raw_transcript transcribe video_path
        whisper_model (.raw r) = load_subtitles_from_raw_transcript r) ∧
    (initSubtitles load_subtitles_from_file
        load_subtitles_from_raw_transcript transcribe video_path
        whisper_model .none = transcribe video_path whisper_model) ∧
    (∀ t : TranscriptArg Raw,
      (isinstancePathLike t = true ∨ typeIsRawTranscript t = true ∨
        isNoneArg t = true) ∧
      ¬(isinstancePathLike t = true ∧ typeIsRawTranscript t = true) ∧
      ¬(isinstancePathLike t = true ∧ isNoneArg t = true) ∧
      ¬(typeIsRawTranscript t = true ∧ isNoneArg t = true)) := by
  refine ⟨fun p => rfl, fun r => rfl, rfl, ?_⟩
  intro t
  cases t <;> simp [isinstancePathLike, typeIsRawTranscript, isNoneArg]

/-- C6: the overlay renderer yields a full-frame transparent RGBA image
of the probed size carrying exactly one draw command: the text — stripped
of non-alphanumerics if the filter flag is set, then upper-cased if the
capitalize flag is set — anchored `mm` at the probe's center, at font
size `int(font_size * scale)`, with the configured fill, stroke width and
stroke fill; every pixel the command does not paint stays transparent. -/
theorem text_image_rendering (probe : Probe) (options : SubtitleOptions)
    (text : String) (scale : ℚ) :
    ∃ cmd : TextCmd,
      (_get_text_image probe options text scale).mode = "RGBA" ∧
      (_get_text_image probe options text scale).size = probe.size ∧
      (_get_text_image probe options text scale).ops = [cmd] ∧
      cmd.text = (if options.capitalize then pyUpper else id)
        ((if options.filter_alnum then filter_alnum else id) text) ∧
      cmd.xy = probe.center ∧
      cmd.anchor = "mm" ∧
      cmd.fontPath = options.font_path ∧
      cmd.fontSize = pyint (options.font_size * scale) ∧
      cmd.fill = options.font_fill ∧
      cmd.stroke_width = options.stroke_width ∧
      cmd.stroke_fill = options.stroke_fill ∧
      ∀ (cov : Coverage) (x y : ℕ), cov cmd x y = Option.none →
        pixelAt cov (_get_text_image probe options text scale) x y =
          (0, 0, 0, 0) := by
  refine ⟨_, rfl, rfl, rfl, ?_, rfl, rfl, rfl, rfl, rfl, rfl, rfl, ?_⟩
  · by_cases hf : options.filter_alnum <;> by_cases hc : options.capitalize <;>
      simp [_get_text_image, hf, hc]
  · intro cov x y hcov
    simp [pixelAt, _get_text_image, hcov]

/-- Witness for C6: `"Hi!"` with both flags set renders as `"HI"`, and an
unpainted pixel is transparent. -/
theorem text_image_rendering_witness :
    ∃ cmd : TextCmd,
      (_get_text_image ⟨(1, 2), (0, 0), 30, 5⟩
        ⟨"f", 10, "w", true, true, 1, "b", 0⟩ "Hi!" 1).ops = [cmd] ∧
      cmd.text = "HI" ∧
      pixelAt (fun _ _ _ => Option.none)
        (_get_text_image ⟨(1, 2), (0, 0), 30, 5⟩
          ⟨"f", 10, "w", true, true, 1, "b", 0⟩ "Hi!" 1) 0 0 =
        (0, 0, 0, 0) := by
  obtain ⟨cmd, -, -, hops, htext, -, -, -, -, -, -, -, htrans⟩ :=
    text_image_rendering ⟨(1, 2), (0, 0), 30, 5⟩
      ⟨"f", 10, "w", true, true, 1, "b", 0⟩ "Hi!" 1
  refine ⟨cmd, hops, ?_, htrans (fun _ _ _ => Option.none) 0 0 rfl⟩
  rw [htext]
  decide

/-- Witness for C7 at concrete arguments: the codec and audio-copy pairs
occur in the spawned command. -/
theorem ffmpeg_fixed_template_witness :
    seqIn ["-c:v", "libx264"]
      (ffmpeg_command (fun _ => "30") "in.mp4" ⟨(1, 1), (0, 0), 30, 5⟩
        ⟨"f", 10, "w", true, true, 1, "b", 0⟩ "out.mp4") ∧
    seqIn ["-c:a", "copy"]
      (ffmpeg_command (fun _ => "30") "in.mp4" ⟨(1, 1), (0, 0), 30, 5⟩
        ⟨"f", 10, "w", true, true, 1, "b", 0⟩ "out.mp4") :=
  ⟨(ffmpeg_fixed_template (fun _ => "30") "in.mp4" ⟨(1, 1), (0, 0), 30, 5⟩
      ⟨"f", 10, "w", true, true, 1, "b", 0⟩ "out.mp4").2.2.2.2.2.1,
   (ffmpeg_fixed_template (fun _ => "30") "in.mp4" ⟨(1, 1), (0, 0), 30, 5⟩
      ⟨"f", 10, "w", true, true, 1, "b", 0⟩ "out.mp4").2.2.2.2.2.2.1⟩

/-- Witness for C4 at concrete loaders: each alternative hits its own
loader. -/
theorem transcript_source_dispatch_witness :
    initSubtitles (fun _ => [⟨"file", 0⟩]) (fun _ => [⟨"raw", 1⟩])
      (fun _ _ => [⟨"asr", 2⟩]) "v.mp4" "base"
      (.path "s.srt" : TranscriptArg Unit) = [⟨"file", 0⟩] ∧
    initSubtitles (fun _ => [⟨"file", 0⟩]) (fun _ => [⟨"raw", 1⟩])
      (fun _ _ => [⟨"asr", 2⟩]) "v.mp4" "base"
      (.raw () : TranscriptArg Unit) = [⟨"raw", 1⟩] ∧
    initSubtitles (fun _ => [⟨"file", 0⟩]) (fun _ => [⟨"raw", 1⟩])
      (fun _ _ => [⟨"asr", 2⟩]) "v.mp4" "base"
      (.none : TranscriptArg Unit) = [⟨"asr", 2⟩] :=
  ⟨(transcript_source_dispatch (fun _ => [⟨"file", 0⟩]) (fun _ => [⟨"raw", 1⟩])
      (fun _ _ => [⟨"asr", 2⟩]) "v.mp4" "base").1 "s.srt",
   (transcript_source_dispatch (fun _ => [⟨"file", 0⟩]) (fun _ => [⟨"raw", 1⟩])
      (fun _ _ => [⟨"asr", 2⟩]) "v.mp4" "base").2.1 (),
   (transcript_source_dispatch (fun (_ : String) => [⟨"file", 0⟩])
      (fun (_ : Unit) => [⟨"raw", 1⟩]) (fun _ _ => [⟨"asr", 2⟩])
      "v.mp4" "base").2.2.1⟩

/-- Witness for C9 on a concrete 1×2 frame with an empty transcript:
the frame written has the constant length 8. -/
theorem frame_bytes_constant_length_witness :
    (frameOutput (fun _ _ _ => Option.none) [] ⟨(1, 2), (0, 0), 30, 5⟩
      ⟨"f", 10, "w", true, true, 1, "b", 0⟩ 0).length = 8 :=
  frame_bytes_constant_length (fun _ _ _ => Option.none) []
    ⟨(1, 2), (0, 0), 30, 5⟩ ⟨"f", 10, "w", true, true, 1, "b", 0⟩ 0

end Burner
